import Mathlib

/-!
Verification of the webpage heading analyser.

The analyser scans the headings (H1..H6) of a document in document order,
flags skipped heading levels, counts H1 elements, and produces a two-line
summary.  A formatter serialises the analysis result, together with the
entered URL, into a flat text report.  A fetch handler wraps the analyser
with input validation and transport error handling.

A document is modelled as the ordered list of its heading elements, each
carrying its level (parsed from the tag name) and its raw text content.
-/

/-- A heading element of the input document: the level parsed from the tag
name (H1..H6) and the element's raw text content (trimming is done by the
analyser itself, as in the source). -/
structure Heading where
  level : Nat
  text : String
  deriving DecidableEq, Repr

/-- The per-heading record produced by the analyser (`HeadingInfo` in the
source, minus the DOM element reference, which carries no analysed data). -/
structure HeadingInfo where
  level : Nat
  text : String
  issues : List String
  deriving DecidableEq, Repr

/-- The output of one analyser invocation: ordered heading records plus the
summary lines. -/
structure AnalysisResult where
  headingsInfo : List HeadingInfo
  summary : List String
  deriving DecidableEq, Repr

/-- The text-content trimming applied by the analyser (`.trim()` on the
element's text content): leading and trailing whitespace removed.  Stated
over the character list so that it computes by structural recursion. -/
def trimChars (l : List Char) : List Char :=
  ((l.dropWhile Char.isWhitespace).reverse.dropWhile Char.isWhitespace).reverse

/-- Trimming lifted to strings. -/
def trimText (s : String) : String :=
  String.mk (trimChars s.data)

/-- The skip issue string pushed by the analyser:
`Skipped heading level: H{lastLevel} followed by H{level}.` -/
def skipIssueMsg (lastLevel level : Nat) : String :=
  "Skipped heading level: H" ++ toString lastLevel ++ " followed by H"
    ++ toString level ++ "."

/-- The issues list attached to one heading: the skip check fires only when
the heading is not the first (`index > 0`) and `level > lastLevel + 1`. -/
def headingIssues (index lastLevel level : Nat) : List String :=
  if 0 < index ∧ lastLevel + 1 < level then [skipIssueMsg lastLevel level] else []

/-- The forEach loop of `analyzeHeadings`: walks the headings carrying the
running `index`, `lastLevel` (initially 0) and `h1Count` (initially 0),
producing the heading records and the final `h1Count`. -/
def scanGo : List Heading → Nat → Nat → Nat → List HeadingInfo × Nat
  | [], _, _, h1Count => ([], h1Count)
  | h :: rest, index, lastLevel, h1Count =>
    let level := h.level
    let text := trimText h.text
    let issues := headingIssues index lastLevel level
    let h1Count1 := if level = 1 then h1Count + 1 else h1Count
    let tail := scanGo rest (index + 1) level h1Count1
    (⟨level, text, issues⟩ :: tail.1, tail.2)

/-- The H1-count summary line of `analyzeHeadings`. -/
def h1CountLine (h1Count : Nat) : String :=
  if h1Count = 0 then
    "Error: No H1 tag found. Every page should have one H1."
  else if h1Count > 1 then
    "Warning: Multiple H1 tags found (" ++ toString h1Count
      ++ "). Best practice is to have only one H1 per page."
  else
    "Good: Exactly one H1 tag found."

/-- The prefix test `issue.startsWith(pre)`, stated over character lists so
that it computes by structural recursion. -/
def strStartsWith (s pre : String) : Bool :=
  pre.data.isPrefixOf s.data

/-- The aggregate skip test of `analyzeHeadings`: some record carries an
issue whose text begins with "Skipped". -/
def hasSkippedIssue (headingsInfo : List HeadingInfo) : Bool :=
  headingsInfo.any fun h => h.issues.any fun issue => strStartsWith issue "Skipped"

/-- The skip summary line of `analyzeHeadings`. -/
def skipSummaryLine (headingsInfo : List HeadingInfo) : String :=
  if hasSkippedIssue headingsInfo then
    "Issue: Heading levels are skipped (e.g., H1 followed directly by H3)."
  else
    "Good: Heading levels follow a logical sequence."

/-- The analyser `analyzeHeadings`: scan the document's headings, then emit
the two summary lines (H1-count line first, skip line second). -/
def analyzeHeadings (doc : List Heading) : AnalysisResult :=
  let scanned := scanGo doc 0 0 0
  ⟨scanned.1, [h1CountLine scanned.2, skipSummaryLine scanned.1]⟩

/-- Rendering of one indentation unit repeated: the source uses
a two-space string repeated `n` times. -/
def indentUnits (n : Nat) : String :=
  String.mk (List.replicate (2 * n) ' ')

/-- The summary section of the report: each summary item on its own line,
prefixed with "- ". -/
def formatSummarySection : List String → String
  | [] => ""
  | item :: rest => "- " ++ item ++ "\n" ++ formatSummarySection rest

/-- The issue sub-lines of one heading block, each indented like the heading
and prefixed with "  -> Issue: ". -/
def formatIssueLinesFor (level : Nat) : List String → String
  | [] => ""
  | issue :: rest =>
    indentUnits (level - 1) ++ "  -> Issue: " ++ issue ++ "\n"
      ++ formatIssueLinesFor level rest

/-- One heading block of the report: the heading line
`H{level}: {text}` indented by `level - 1` units, then its issue
sub-lines (the source guards the issue loop with a redundant
nonemptiness test, kept here). -/
def formatHeadingBlock (h : HeadingInfo) : String :=
  indentUnits (h.level - 1) ++ "H" ++ toString h.level ++ ": " ++ h.text ++ "\n"
    ++ (if h.issues.length > 0 then formatIssueLinesFor h.level h.issues else "")

/-- The headings section of the report: the heading blocks in order. -/
def formatHeadingSection : List HeadingInfo → String
  | [] => ""
  | h :: rest => formatHeadingBlock h ++ formatHeadingSection rest

/-- The formatter `formatResultsForExport`: render the analysis state
(entered URL, summary lines, heading records) as a flat text report. -/
def formatResultsForExport (url : String) (analysisSummary : List String)
    (headings : List HeadingInfo) : String :=
  "Heading Structure Analysis for: " ++ url ++ "\n"
    ++ "========================================\n\n"
    ++ "Summary:\n"
    ++ formatSummarySection analysisSummary
    ++ "\n"
    ++ "Headings Found:\n"
    ++ formatHeadingSection headings
    ++ "\n========================================\n"

/-- The component state held by the app: entered URL, current heading
records, loading flag, error message, current summary lines. -/
structure AppState where
  url : String
  headings : List HeadingInfo
  isLoading : Bool
  error : Option String
  analysisSummary : List String
  deriving DecidableEq, Repr

/-- The outcome of the awaited fetch-and-parse step: a parsed document, or
a transport/parse failure with its message (for a non-success response the
source throws `Failed to fetch: {status} {statusText}`, which arrives here
as the failure message). -/
inductive FetchOutcome where
  | success (doc : List Heading)
  | failure (msg : String)
  deriving DecidableEq, Repr

/-- The error message set by the catch branch of `handleFetchAndAnalyze`. -/
def fetchFailureMessage (msg : String) : String :=
  "Failed to fetch or parse the URL. Error: " ++ msg
    ++ ". This might be due to network issues, the website blocking requests, or the CORS proxy limitations."

/-- The handler `handleFetchAndAnalyze`: an empty URL is rejected up front
(only the error message changes); otherwise the state is cleared, the
fetch outcome is consumed, and either the analyser's result is stored or
the failure message is surfaced. -/
def handleFetchAndAnalyze (s : AppState) (outcome : FetchOutcome) : AppState :=
  if s.url = "" then { s with error := some "Please enter a URL." }
  else
    match outcome with
    | FetchOutcome.success doc =>
      let result := analyzeHeadings doc
      { s with isLoading := false, error := none,
               headings := result.headingsInfo,
               analysisSummary := result.summary }
    | FetchOutcome.failure msg =>
      { s with isLoading := false, error := some (fetchFailureMessage msg),
               headings := [], analysisSummary := [] }

/-- The report layout as the specification describes it: a header line,
each summary line prefixed with "- ", each heading rendered as
`H{level}: {text}` indented by `level - 1` indentation units, and each of
its issues as an indented sub-line prefixed "-> Issue: ". -/
def specReportLayout (url : String) (analysisSummary : List String)
    (headings : List HeadingInfo) : String :=
  "Heading Structure Analysis for: " ++ url ++ "\n"
    ++ "========================================\n\n"
    ++ "Summary:\n"
    ++ String.join (analysisSummary.map fun item => "- " ++ item ++ "\n")
    ++ "\n"
    ++ "Headings Found:\n"
    ++ String.join (headings.map fun h =>
         indentUnits (h.level - 1) ++ "H" ++ toString h.level ++ ": " ++ h.text ++ "\n"
           ++ String.join (h.issues.map fun issue =>
                indentUnits (h.level - 1) ++ "  -> Issue: " ++ issue ++ "\n"))
    ++ "\n========================================\n"

/-! Parsing the report's heading lines back out.  The parse is modelled
from the specification's round-trip property: the report is split into
lines, and the lines of the form `H{level}: {text}` (with their
indentation) are recovered as `(level, text)` pairs. -/

/-- Drop the leading indentation spaces of a report line. -/
def dropSpaces : List Char → List Char
  | [] => []
  | c :: cs => if c = ' ' then dropSpaces cs else c :: cs

/-- Read a decimal digit run, returning its value and the rest of the
line; 48 is the code point of the digit zero. -/
def readDigits : List Char → Nat → Nat × List Char
  | [], acc => (acc, [])
  | c :: cs, acc =>
    if c.isDigit then readDigits cs (acc * 10 + (c.toNat - 48)) else (acc, c :: cs)

/-- Modelled from the spec: a line of the form `H{level}: {text}` (after
its indentation) yields the pair `(level, text)`; any other line yields
nothing. -/
def parseAfterIndent : List Char → Option (Nat × String)
  | 'H' :: c :: rest =>
    if c.isDigit then
      match readDigits rest (c.toNat - 48) with
      | (n, ':' :: ' ' :: text) => some (n, String.mk text)
      | _ => none
    else none
  | _ => none

/-- Parse one report line, indentation included. -/
def parseHeadingLineChars (l : List Char) : Option (Nat × String) :=
  parseAfterIndent (dropSpaces l)

/-- Split a character stream at newlines: the current line plus the later
lines. -/
def splitNlChars : List Char → List Char × List (List Char)
  | [] => ([], [])
  | c :: cs =>
    let r := splitNlChars cs
    if c = '\n' then ([], r.1 :: r.2) else (c :: r.1, r.2)

/-- The lines of a character stream. -/
def splitLinesChars (cs : List Char) : List (List Char) :=
  (splitNlChars cs).1 :: (splitNlChars cs).2

/-- The heading lines of a report (as a character stream), parsed back out
in order. -/
def parseReportChars (cs : List Char) : List (Nat × String) :=
  (splitLinesChars cs).filterMap parseHeadingLineChars

/-- Modelled from the spec: parse the report's heading lines back out. -/
def parseHeadingLines (s : String) : List (Nat × String) :=
  parseReportChars s.data

example : analyzeHeadings [] =
    ⟨[], ["Error: No H1 tag found. Every page should have one H1.",
          "Good: Heading levels follow a logical sequence."]⟩ := by decide

example : analyzeHeadings [⟨1, "Title"⟩, ⟨3, "Sub"⟩, ⟨2, "Other"⟩] =
    ⟨[⟨1, "Title", []⟩,
      ⟨3, "Sub", ["Skipped heading level: H1 followed by H3."]⟩,
      ⟨2, "Other", []⟩],
     ["Good: Exactly one H1 tag found.",
      "Issue: Heading levels are skipped (e.g., H1 followed directly by H3)."]⟩ := by
  decide

/-! Structural lemmas about the scan loop. -/

theorem scanGo_length (l : List Heading) (index lastLevel h1Count : Nat) :
    (scanGo l index lastLevel h1Count).1.length = l.length := by
  induction l generalizing index lastLevel h1Count with
  | nil => rfl
  | cons h rest ih => simp [scanGo, ih]

theorem scanGo_get_zero (h : Heading) (rest : List Heading)
    (index lastLevel h1Count : Nat)
    (hlt : 0 < (scanGo (h :: rest) index lastLevel h1Count).1.length) :
    (scanGo (h :: rest) index lastLevel h1Count).1.get ⟨0, hlt⟩ =
      ⟨h.level, trimText h.text, headingIssues index lastLevel h.level⟩ := rfl

theorem scanGo_get_succ : ∀ (l : List Heading) (index lastLevel h1Count i : Nat)
    (hi : i + 1 < l.length),
    (scanGo l index lastLevel h1Count).1.get
        ⟨i + 1, by rw [scanGo_length]; exact hi⟩ =
      ⟨(l.get ⟨i + 1, hi⟩).level, trimText (l.get ⟨i + 1, hi⟩).text,
       headingIssues (index + i + 1) (l.get ⟨i, Nat.lt_of_succ_lt hi⟩).level
         (l.get ⟨i + 1, hi⟩).level⟩
  | [], _, _, _, _, hi => absurd hi (by simp)
  | h :: h2 :: rest, _, _, _, 0, _ => rfl
  | [h], _, _, _, 0, hi => absurd hi (by simp)
  | h :: rest, index, lastLevel, h1Count, j + 1, hi => by
    have hj : j + 1 < rest.length := Nat.lt_of_succ_lt_succ hi
    have ih := scanGo_get_succ rest (index + 1) h.level
      (if h.level = 1 then h1Count + 1 else h1Count) j hj
    have harith : index + 1 + j + 1 = index + (j + 1) + 1 := by omega
    rw [harith] at ih
    exact ih

theorem scanGo_count (l : List Heading) (index lastLevel h1Count : Nat) :
    (scanGo l index lastLevel h1Count).2 =
      h1Count + l.countP (fun h => h.level == 1) := by
  induction l generalizing index lastLevel h1Count with
  | nil => simp [scanGo]
  | cons h rest ih =>
    rw [List.countP_cons]
    by_cases hh : h.level = 1
    · simp [scanGo, ih, hh]
      omega
    · simp [scanGo, ih, hh]

theorem analyzeHeadings_length (doc : List Heading) :
    (analyzeHeadings doc).headingsInfo.length = doc.length :=
  scanGo_length doc 0 0 0

/-- C1: for every adjacent pair of headings at positions `i-1, i` (`i > 0`)
with levels `a, b`, an issue is attached to the heading at position `i`
iff `b > a + 1`, and in that case the issue string is exactly
`Skipped heading level: H{a} followed by H{b}.` with `a` the previous
heading's own level. -/
theorem analyze_adjacent_skip_iff (doc : List Heading) (i : Nat) (h0 : 0 < i)
    (hi : i < doc.length) :
    ((analyzeHeadings doc).headingsInfo.get
        ⟨i, by rw [analyzeHeadings_length]; exact hi⟩).issues =
      (if (doc.get ⟨i - 1, by omega⟩).level + 1 < (doc.get ⟨i, hi⟩).level then
        ["Skipped heading level: H" ++ toString (doc.get ⟨i - 1, by omega⟩).level
          ++ " followed by H" ++ toString (doc.get ⟨i, hi⟩).level ++ "."]
      else []) := by
  obtain ⟨j, rfl⟩ : ∃ j, i = j + 1 := ⟨i - 1, by omega⟩
  have key := scanGo_get_succ doc 0 0 0 j hi
  have lhs_eq : (analyzeHeadings doc).headingsInfo.get
      ⟨j + 1, by rw [analyzeHeadings_length]; exact hi⟩ =
      (scanGo doc 0 0 0).1.get ⟨j + 1, by rw [scanGo_length]; exact hi⟩ := rfl
  rw [lhs_eq, key]
  simp [headingIssues, skipIssueMsg]

/-- Witness for C1 on the document `H1, H3`. -/
theorem analyze_adjacent_skip_iff_witness :
    (0 < 1 ∧ 1 < ([⟨1, "Title"⟩, ⟨3, "Sub"⟩] : List Heading).length) ∧
    ((analyzeHeadings [⟨1, "Title"⟩, ⟨3, "Sub"⟩]).headingsInfo.get
        ⟨1, by decide⟩).issues =
      (if (([⟨1, "Title"⟩, ⟨3, "Sub"⟩] : List Heading).get ⟨0, by decide⟩).level + 1 <
          (([⟨1, "Title"⟩, ⟨3, "Sub"⟩] : List Heading).get ⟨1, by decide⟩).level then
        ["Skipped heading level: H"
          ++ toString (([⟨1, "Title"⟩, ⟨3, "Sub"⟩] : List Heading).get ⟨0, by decide⟩).level
          ++ " followed by H"
          ++ toString (([⟨1, "Title"⟩, ⟨3, "Sub"⟩] : List Heading).get ⟨1, by decide⟩).level
          ++ "."]
      else []) :=
  ⟨⟨by decide, by decide⟩,
   analyze_adjacent_skip_iff [⟨1, "Title"⟩, ⟨3, "Sub"⟩] 1 (by decide) (by decide)⟩

/-- C2: the first heading in document order never receives a skip-level
issue, whatever its level. -/
theorem analyze_first_heading_no_issue (doc : List Heading) (r : HeadingInfo)
    (hr : (analyzeHeadings doc).headingsInfo.head? = some r) : r.issues = [] := by
  cases doc with
  | nil => simp [analyzeHeadings, scanGo] at hr
  | cons h rest =>
    have : r = ⟨h.level, trimText h.text, headingIssues 0 0 h.level⟩ := by
      have : (analyzeHeadings (h :: rest)).headingsInfo.head? =
          some ⟨h.level, trimText h.text, headingIssues 0 0 h.level⟩ := rfl
      rw [this] at hr
      exact (Option.some.inj hr).symm
    rw [this]
    simp [headingIssues]

/-- Witness for C2: a document whose only heading is an H4 yields a record
with an empty issues list. -/
theorem analyze_first_heading_no_issue_witness :
    (analyzeHeadings [⟨4, "Only"⟩]).headingsInfo.head? = some ⟨4, "Only", []⟩ ∧
    (⟨4, "Only", []⟩ : HeadingInfo).issues = [] :=
  ⟨by decide, analyze_first_heading_no_issue [⟨4, "Only"⟩] ⟨4, "Only", []⟩ (by decide)⟩

/-- C3: a heading whose level is lower than its immediate predecessor's
level is never flagged, whatever the magnitude of the decrease. -/
theorem analyze_decrease_no_issue (doc : List Heading) (i : Nat) (h0 : 0 < i)
    (hi : i < doc.length)
    (hdec : (doc.get ⟨i, hi⟩).level < (doc.get ⟨i - 1, by omega⟩).level) :
    ((analyzeHeadings doc).headingsInfo.get
        ⟨i, by rw [analyzeHeadings_length]; exact hi⟩).issues = [] := by
  obtain ⟨j, rfl⟩ : ∃ j, i = j + 1 := ⟨i - 1, by omega⟩
  have key := scanGo_get_succ doc 0 0 0 j hi
  have lhs_eq : (analyzeHeadings doc).headingsInfo.get
      ⟨j + 1, by rw [analyzeHeadings_length]; exact hi⟩ =
      (scanGo doc 0 0 0).1.get ⟨j + 1, by rw [scanGo_length]; exact hi⟩ := rfl
  rw [lhs_eq, key]
  have hj : (doc.get ⟨j, Nat.lt_of_succ_lt hi⟩).level =
      (doc.get ⟨j + 1 - 1, by omega⟩).level := rfl
  simp only [headingIssues]
  rw [if_neg]
  intro hcontra
  rw [hj] at hcontra
  omega

/-- Witness for C3 on the document `H4, H2`. -/
theorem analyze_decrease_no_issue_witness :
    (0 < 1 ∧ 1 < ([⟨4, "Deep"⟩, ⟨2, "Up"⟩] : List Heading).length ∧
      (([⟨4, "Deep"⟩, ⟨2, "Up"⟩] : List Heading).get ⟨1, by decide⟩).level <
        (([⟨4, "Deep"⟩, ⟨2, "Up"⟩] : List Heading).get ⟨0, by decide⟩).level) ∧
    ((analyzeHeadings [⟨4, "Deep"⟩, ⟨2, "Up"⟩]).headingsInfo.get
        ⟨1, by decide⟩).issues = [] :=
  ⟨⟨by decide, by decide, by decide⟩,
   analyze_decrease_no_issue [⟨4, "Deep"⟩, ⟨2, "Up"⟩] 1 (by decide) (by decide)
     (by decide)⟩

/-- C4: a document with zero headings yields an empty heading list and
exactly the no-H1 error line followed by the logical-sequence pass line. -/
theorem analyze_empty_document :
    analyzeHeadings [] =
      ⟨[], ["Error: No H1 tag found. Every page should have one H1.",
            "Good: Heading levels follow a logical sequence."]⟩ := by
  decide

/-- C5: the summary is always exactly two lines, in fixed order: the
H1-count line (error for zero H1s, success for exactly one, a warning
stating the exact count for several), then the skip line (aggregate issue
line iff some record carries an issue starting with "Skipped", otherwise
the success line). -/
theorem analyze_summary_two_lines (doc : List Heading) :
    (analyzeHeadings doc).summary =
      [(if doc.countP (fun h => h.level == 1) = 0 then
          "Error: No H1 tag found. Every page should have one H1."
        else if doc.countP (fun h => h.level == 1) > 1 then
          "Warning: Multiple H1 tags found ("
            ++ toString (doc.countP (fun h => h.level == 1))
            ++ "). Best practice is to have only one H1 per page."
        else "Good: Exactly one H1 tag found."),
       (if (analyzeHeadings doc).headingsInfo.any
            (fun h => h.issues.any fun issue => strStartsWith issue "Skipped") then
          "Issue: Heading levels are skipped (e.g., H1 followed directly by H3)."
        else "Good: Heading levels follow a logical sequence.")] := by
  have hcount : (scanGo doc 0 0 0).2 = doc.countP (fun h => h.level == 1) := by
    rw [scanGo_count doc 0 0 0]
    exact Nat.zero_add _
  show [h1CountLine (scanGo doc 0 0 0).2, skipSummaryLine (scanGo doc 0 0 0).1] = _
  rw [hcount]
  rfl

/-- C8: a run with an empty URL is rejected up front: only the error
message changes (the previous headings and summary are untouched and no
analysis is performed, whatever the fetch would have produced). -/
theorem handleFetch_empty_url (s : AppState) (outcome : FetchOutcome)
    (h : s.url = "") :
    handleFetchAndAnalyze s outcome = { s with error := some "Please enter a URL." } := by
  simp [handleFetchAndAnalyze, h]

/-- Witness for C8. -/
theorem handleFetch_empty_url_witness :
    (AppState.url ⟨"", [⟨2, "Old", []⟩], false, none, ["old line"]⟩ = "") ∧
    handleFetchAndAnalyze ⟨"", [⟨2, "Old", []⟩], false, none, ["old line"]⟩
        (FetchOutcome.success [⟨1, "T"⟩]) =
      { (⟨"", [⟨2, "Old", []⟩], false, none, ["old line"]⟩ : AppState) with
          error := some "Please enter a URL." } :=
  ⟨by decide,
   handleFetch_empty_url ⟨"", [⟨2, "Old", []⟩], false, none, ["old line"]⟩
     (FetchOutcome.success [⟨1, "T"⟩]) (by decide)⟩

/-- C9: a failed fetch aborts the run with no partial result retained: the
headings and summary are left empty, loading ends, and the surfaced error
message contains the underlying failure text. -/
theorem handleFetch_failure (s : AppState) (msg : String) (h : ¬ s.url = "") :
    handleFetchAndAnalyze s (FetchOutcome.failure msg) =
      { s with isLoading := false, headings := [], analysisSummary := [],
               error := some ("Failed to fetch or parse the URL. Error: " ++ msg
                 ++ ". This might be due to network issues, the website blocking requests, or the CORS proxy limitations.") } := by
  simp [handleFetchAndAnalyze, h, fetchFailureMessage]

/-- Witness for C9. -/
theorem handleFetch_failure_witness :
    (¬ AppState.url ⟨"https://example.com", [⟨2, "Old", []⟩], true, none, ["old"]⟩ = "") ∧
    handleFetchAndAnalyze ⟨"https://example.com", [⟨2, "Old", []⟩], true, none, ["old"]⟩
        (FetchOutcome.failure "Failed to fetch: 404 Not Found") =
      { (⟨"https://example.com", [⟨2, "Old", []⟩], true, none, ["old"]⟩ : AppState) with
          isLoading := false, headings := [], analysisSummary := [],
          error := some ("Failed to fetch or parse the URL. Error: "
            ++ "Failed to fetch: 404 Not Found"
            ++ ". This might be due to network issues, the website blocking requests, or the CORS proxy limitations.") } :=
  ⟨by decide,
   handleFetch_failure ⟨"https://example.com", [⟨2, "Old", []⟩], true, none, ["old"]⟩
     "Failed to fetch: 404 Not Found" (by decide)⟩

/-- C10: every heading record carries at most one issue: its issues list is
empty, or the heading is not the first and the list is the singleton skip
string built from its own level and its immediate predecessor's level. -/
theorem analyze_at_most_one_issue (doc : List Heading) (i : Nat)
    (hi : i < doc.length) :
    ((analyzeHeadings doc).headingsInfo.get
        ⟨i, by rw [analyzeHeadings_length]; exact hi⟩).issues = [] ∨
      (0 < i ∧
        ((analyzeHeadings doc).headingsInfo.get
            ⟨i, by rw [analyzeHeadings_length]; exact hi⟩).issues =
          [skipIssueMsg (doc.get ⟨i - 1, by omega⟩).level (doc.get ⟨i, hi⟩).level]) := by
  cases i with
  | zero =>
    left
    cases doc with
    | nil => exact absurd hi (by simp)
    | cons h rest =>
      have : (analyzeHeadings (h :: rest)).headingsInfo.get
          ⟨0, by rw [analyzeHeadings_length]; exact hi⟩ =
          ⟨h.level, trimText h.text, headingIssues 0 0 h.level⟩ := rfl
      rw [this]
      simp [headingIssues]
  | succ j =>
    have key := scanGo_get_succ doc 0 0 0 j hi
    have lhs_eq : (analyzeHeadings doc).headingsInfo.get
        ⟨j + 1, by rw [analyzeHeadings_length]; exact hi⟩ =
        (scanGo doc 0 0 0).1.get ⟨j + 1, by rw [scanGo_length]; exact hi⟩ := rfl
    rw [lhs_eq, key]
    simp only [headingIssues]
    by_cases hskip : (doc.get ⟨j, Nat.lt_of_succ_lt hi⟩).level + 1 <
        (doc.get ⟨j + 1, hi⟩).level
    · right
      refine ⟨Nat.succ_pos j, ?_⟩
      rw [if_pos (by exact ⟨by omega, hskip⟩)]
      rfl
    · left
      rw [if_neg]
      intro hcontra
      exact hskip hcontra.2

/-- Witness for C10 on the document `H1, H3` (singleton issue branch). -/
theorem analyze_at_most_one_issue_witness :
    (1 < ([⟨1, "A"⟩, ⟨3, "B"⟩] : List Heading).length) ∧
    (((analyzeHeadings [⟨1, "A"⟩, ⟨3, "B"⟩]).headingsInfo.get ⟨1, by decide⟩).issues = [] ∨
      (0 < 1 ∧
        ((analyzeHeadings [⟨1, "A"⟩, ⟨3, "B"⟩]).headingsInfo.get ⟨1, by decide⟩).issues =
          [skipIssueMsg (([⟨1, "A"⟩, ⟨3, "B"⟩] : List Heading).get ⟨0, by decide⟩).level
            (([⟨1, "A"⟩, ⟨3, "B"⟩] : List Heading).get ⟨1, by decide⟩).level])) :=
  ⟨by decide, analyze_at_most_one_issue [⟨1, "A"⟩, ⟨3, "B"⟩] 1 (by decide)⟩

/-! The report layout, restated independently from the specification text,
and the proof that the formatter produces exactly that layout. -/

theorem formatSummarySection_eq (l : List String) :
    formatSummarySection l = String.join (l.map fun item => "- " ++ item ++ "\n") := by
  induction l with
  | nil => rfl
  | cons item rest ih =>
    apply String.ext
    simp [formatSummarySection, ih]

theorem formatIssueLinesFor_eq (level : Nat) (issues : List String) :
    formatIssueLinesFor level issues =
      String.join (issues.map fun issue =>
        indentUnits (level - 1) ++ "  -> Issue: " ++ issue ++ "\n") := by
  induction issues with
  | nil => rfl
  | cons issue rest ih =>
    apply String.ext
    simp [formatIssueLinesFor, ih]

theorem formatHeadingBlock_eq (h : HeadingInfo) :
    formatHeadingBlock h =
      indentUnits (h.level - 1) ++ "H" ++ toString h.level ++ ": " ++ h.text ++ "\n"
        ++ String.join (h.issues.map fun issue =>
             indentUnits (h.level - 1) ++ "  -> Issue: " ++ issue ++ "\n") := by
  unfold formatHeadingBlock
  cases hiss : h.issues with
  | nil => simp [show String.join ([] : List String) = "" from rfl]
  | cons issue rest =>
    rw [if_pos (by simp), ← hiss, formatIssueLinesFor_eq]

theorem formatHeadingSection_eq (hs : List HeadingInfo) :
    formatHeadingSection hs =
      String.join (hs.map fun h =>
        indentUnits (h.level - 1) ++ "H" ++ toString h.level ++ ": " ++ h.text ++ "\n"
          ++ String.join (h.issues.map fun issue =>
               indentUnits (h.level - 1) ++ "  -> Issue: " ++ issue ++ "\n")) := by
  induction hs with
  | nil => rfl
  | cons h rest ih =>
    apply String.ext
    simp [formatHeadingSection, formatHeadingBlock_eq, ih]

/-- C7: the formatter renders exactly the layout the specification
describes — header line, "- "-prefixed summary lines, `H{level}: {text}`
heading lines indented by `level - 1` units, "-> Issue: " sub-lines — with
no further decisions. -/
theorem format_layout_spec (url : String) (analysisSummary : List String)
    (headings : List HeadingInfo) :
    formatResultsForExport url analysisSummary headings =
      specReportLayout url analysisSummary headings := by
  unfold formatResultsForExport specReportLayout
  rw [formatSummarySection_eq, formatHeadingSection_eq]


example :
    parseHeadingLines (formatResultsForExport "https://a.io"
      ["Good: Exactly one H1 tag found."]
      [⟨1, "T", []⟩, ⟨3, "S", ["Skipped heading level: H1 followed by H3."]⟩]) =
      [(1, "T"), (3, "S")] := by decide

example :
    parseHeadingLines (formatResultsForExport "u" []
      [⟨1, "a" ++ "\n" ++ "H2: b", []⟩]) = [(1, "a"), (2, "b")] := by decide

/-! Lemmas about the line splitter and the line parser. -/

theorem splitNlChars_append (l rest : List Char) (hl : ¬ '\n' ∈ l) :
    splitNlChars (l ++ '\n' :: rest) =
      (l, (splitNlChars rest).1 :: (splitNlChars rest).2) := by
  induction l with
  | nil => simp [splitNlChars]
  | cons c l ih =>
    have hc : ¬ c = '\n' := fun h => hl (by rw [h]; exact List.mem_cons_self _ _)
    have hl2 : ¬ '\n' ∈ l := fun h => hl (List.mem_cons_of_mem _ h)
    simp [splitNlChars, ih hl2, hc]

theorem parseReport_line (l rest : List Char) (hl : ¬ '\n' ∈ l) :
    parseReportChars (l ++ '\n' :: rest) =
      (parseHeadingLineChars l).toList ++ parseReportChars rest := by
  unfold parseReportChars splitLinesChars
  rw [splitNlChars_append l rest hl]
  cases hp : parseHeadingLineChars l <;> simp [List.filterMap_cons, hp]

theorem parseReport_newline (rest : List Char) :
    parseReportChars ('\n' :: rest) = parseReportChars rest := by
  have h := parseReport_line [] rest (by simp)
  simpa using h

theorem parse_dash (t : List Char) : parseHeadingLineChars ('-' :: t) = none := rfl

theorem parse_He (t : List Char) :
    parseHeadingLineChars ('H' :: 'e' :: t) = none := rfl

theorem dropSpaces_replicate (k : Nat) (t : List Char) :
    dropSpaces (List.replicate k ' ' ++ t) = dropSpaces t := by
  induction k with
  | zero => rfl
  | succ k ih => simpa [List.replicate_succ, dropSpaces] using ih

theorem parse_issue_line (k : Nat) (t : List Char) :
    parseHeadingLineChars (List.replicate k ' ' ++ (' ' :: ' ' :: '-' :: t)) = none := by
  unfold parseHeadingLineChars
  rw [dropSpaces_replicate]
  rfl

theorem parse_heading_line (k lvl : Nat) (h1 : 1 ≤ lvl) (h6 : lvl ≤ 6) (text : String) :
    parseHeadingLineChars
        (List.replicate k ' '
          ++ ('H' :: ((toString lvl).data ++ (':' :: ' ' :: text.data)))) =
      some (lvl, text) := by
  unfold parseHeadingLineChars
  rw [dropSpaces_replicate]
  interval_cases lvl
  all_goals rfl

theorem nl_not_mem_headingLine (k lvl : Nat) (h1 : 1 ≤ lvl) (h6 : lvl ≤ 6)
    (text : String) (ht : ¬ '\n' ∈ text.data) :
    ¬ '\n' ∈ (List.replicate k ' '
      ++ ('H' :: ((toString lvl).data ++ (':' :: ' ' :: text.data)))) := by
  intro hmem
  rcases List.mem_append.1 hmem with hrep | hrest
  · exact absurd (List.eq_of_mem_replicate hrep) (by decide)
  · rcases List.mem_cons.1 hrest with hH | hrest2
    · exact absurd hH (by decide)
    rcases List.mem_append.1 hrest2 with hdig | htail
    · interval_cases lvl <;> revert hdig <;> decide
    rcases List.mem_cons.1 htail with hcolon | htail2
    · exact absurd hcolon (by decide)
    rcases List.mem_cons.1 htail2 with hspace | htext
    · exact absurd hspace (by decide)
    exact ht htext

/-! The report sections, consumed by the line parser. -/

theorem parseReport_summary (items : List String) (rest : List Char)
    (h : ∀ item ∈ items, ¬ '\n' ∈ item.data) :
    parseReportChars ((formatSummarySection items).data ++ rest) =
      parseReportChars rest := by
  induction items with
  | nil => rfl
  | cons item items ih =>
    have hitem : ¬ '\n' ∈ item.data := h item (List.mem_cons_self _ _)
    have hshape : (formatSummarySection (item :: items)).data ++ rest =
        ("- ".data ++ item.data)
          ++ '\n' :: ((formatSummarySection items).data ++ rest) := by
      simp only [formatSummarySection, String.data_append, List.append_assoc]
      rfl
    rw [hshape, parseReport_line _ _ (by
      intro hmem
      rcases List.mem_append.1 hmem with hpre | htext
      · exact absurd hpre (by decide)
      · exact hitem htext)]
    rw [show parseHeadingLineChars ("- ".data ++ item.data) = none from parse_dash _]
    exact ih fun it hmem => h it (List.mem_cons_of_mem _ hmem)

theorem parseReport_issueLines (level : Nat) (issues : List String) (rest : List Char)
    (h : ∀ issue ∈ issues, ¬ '\n' ∈ issue.data) :
    parseReportChars ((formatIssueLinesFor level issues).data ++ rest) =
      parseReportChars rest := by
  induction issues with
  | nil => rfl
  | cons issue issues ih =>
    have hissue : ¬ '\n' ∈ issue.data := h issue (List.mem_cons_self _ _)
    have hshape : (formatIssueLinesFor level (issue :: issues)).data ++ rest =
        (List.replicate (2 * (level - 1)) ' '
            ++ (' ' :: ' ' :: '-' :: ('>' :: ' ' :: 'I' :: 's' :: 's' :: 'u' :: 'e'
                :: ':' :: ' ' :: issue.data)))
          ++ '\n' :: ((formatIssueLinesFor level issues).data ++ rest) := by
      simp only [formatIssueLinesFor, indentUnits, String.data_append, List.append_assoc]
      rfl
    rw [hshape, parseReport_line _ _ (by
      intro hmem
      rcases List.mem_append.1 hmem with hrep | hrest
      · exact absurd (List.eq_of_mem_replicate hrep) (by decide)
      rcases List.mem_cons.1 hrest with hx | hrest2
      · exact absurd hx (by decide)
      rcases List.mem_cons.1 hrest2 with hx | hrest3
      · exact absurd hx (by decide)
      rcases List.mem_cons.1 hrest3 with hx | hrest4
      · exact absurd hx (by decide)
      iterate 9 (rcases List.mem_cons.1 hrest4 with hx | hrest4
                 · exact absurd hx (by decide))
      exact hissue hrest4)]
    rw [show parseHeadingLineChars (List.replicate (2 * (level - 1)) ' '
        ++ (' ' :: ' ' :: '-' :: ('>' :: ' ' :: 'I' :: 's' :: 's' :: 'u' :: 'e'
            :: ':' :: ' ' :: issue.data))) = none from parse_issue_line _ _]
    exact ih fun it hmem => h it (List.mem_cons_of_mem _ hmem)

theorem parseReport_headingSection (hs : List HeadingInfo) (rest : List Char)
    (h : ∀ hh ∈ hs, 1 ≤ hh.level ∧ hh.level ≤ 6 ∧ ¬ '\n' ∈ hh.text.data ∧
      ∀ issue ∈ hh.issues, ¬ '\n' ∈ issue.data) :
    parseReportChars ((formatHeadingSection hs).data ++ rest) =
      (hs.map fun hh => (hh.level, hh.text)) ++ parseReportChars rest := by
  induction hs with
  | nil => rfl
  | cons hh hs ih =>
    obtain ⟨h1, h6, htext, hIssues⟩ := h hh (List.mem_cons_self _ _)
    have hshape : (formatHeadingSection (hh :: hs)).data ++ rest =
        (List.replicate (2 * (hh.level - 1)) ' '
            ++ ('H' :: ((toString hh.level).data ++ (':' :: ' ' :: hh.text.data))))
          ++ '\n' :: ((if hh.issues.length > 0
                then formatIssueLinesFor hh.level hh.issues else "").data
              ++ ((formatHeadingSection hs).data ++ rest)) := by
      simp only [formatHeadingSection, formatHeadingBlock, indentUnits,
        String.data_append, List.append_assoc, List.cons_append, List.nil_append,
        List.singleton_append]
    rw [hshape,
      parseReport_line _ _ (nl_not_mem_headingLine _ _ h1 h6 _ htext),
      show parseHeadingLineChars (List.replicate (2 * (hh.level - 1)) ' '
          ++ ('H' :: ((toString hh.level).data ++ (':' :: ' ' :: hh.text.data)))) =
        some (hh.level, hh.text) from parse_heading_line _ _ h1 h6 _]
    have hrest : parseReportChars ((if hh.issues.length > 0
          then formatIssueLinesFor hh.level hh.issues else "").data
        ++ ((formatHeadingSection hs).data ++ rest)) =
        (hs.map fun x => (x.level, x.text)) ++ parseReportChars rest := by
      cases hIss : hh.issues with
      | nil =>
        simp only [hIss, List.length_nil, gt_iff_lt, Nat.lt_irrefl, if_false]
        exact ih fun x hmem => h x (List.mem_cons_of_mem _ hmem)
      | cons i0 irest =>
        rw [if_pos (by simp), ← hIss,
          parseReport_issueLines hh.level hh.issues _ hIssues]
        exact ih fun x hmem => h x (List.mem_cons_of_mem _ hmem)
    rw [hrest]
    rfl

/-! The fixed lines of the report, consumed by the line parser. -/

theorem parseReport_headerLine (url : String) (hu : ¬ '\n' ∈ url.data)
    (rest : List Char) :
    parseReportChars (("Heading Structure Analysis for: ".data ++ url.data)
        ++ '\n' :: rest) = parseReportChars rest := by
  rw [parseReport_line _ _ (by
    intro hmem
    rcases List.mem_append.1 hmem with hpre | hurl
    · exact absurd hpre (by decide)
    · exact hu hurl)]
  rw [show parseHeadingLineChars ("Heading Structure Analysis for: ".data ++ url.data)
      = none from parse_He _]
  rfl

theorem parseReport_sepLine (rest : List Char) :
    parseReportChars ("========================================".data ++ '\n' :: rest) =
      parseReportChars rest := by
  rw [parseReport_line _ _ (by decide)]
  rw [show parseHeadingLineChars ("========================================".data) =
      none from by decide]
  rfl

theorem parseReport_summaryTitle (rest : List Char) :
    parseReportChars ("Summary:".data ++ '\n' :: rest) = parseReportChars rest := by
  rw [parseReport_line _ _ (by decide)]
  rw [show parseHeadingLineChars ("Summary:".data) = none from by decide]
  rfl

theorem parseReport_headingsTitle (rest : List Char) :
    parseReportChars ("Headings Found:".data ++ '\n' :: rest) =
      parseReportChars rest := by
  rw [parseReport_line _ _ (by decide)]
  rw [show parseHeadingLineChars ("Headings Found:".data) = none from by decide]
  rfl

theorem parseReport_tail :
    parseReportChars ('\n' :: ("========================================".data
      ++ '\n' :: [])) = [] := by decide

/-- C6 (amended): parsing the heading lines of a rendered report recovers
exactly the original ordered `(level, text)` sequence, provided the
rendered fields (URL, summary lines, heading texts, issue strings) contain
no newline character and the heading levels lie in 1..6 as the data model
requires.  (Unrestricted, the claim fails: see the counterexample.) -/
theorem format_parse_roundTrip (url : String) (analysisSummary : List String)
    (headings : List HeadingInfo)
    (hu : ¬ '\n' ∈ url.data)
    (hsum : ∀ item ∈ analysisSummary, ¬ '\n' ∈ item.data)
    (hhead : ∀ h ∈ headings, 1 ≤ h.level ∧ h.level ≤ 6 ∧ ¬ '\n' ∈ h.text.data ∧
      ∀ issue ∈ h.issues, ¬ '\n' ∈ issue.data) :
    parseHeadingLines (formatResultsForExport url analysisSummary headings) =
      headings.map fun h => (h.level, h.text) := by
  unfold parseHeadingLines
  have hd : (formatResultsForExport url analysisSummary headings).data =
      ("Heading Structure Analysis for: ".data ++ url.data) ++ '\n' ::
      ("========================================".data ++ '\n' :: '\n' ::
       ("Summary:".data ++ '\n' ::
        ((formatSummarySection analysisSummary).data ++ '\n' ::
         ("Headings Found:".data ++ '\n' ::
          ((formatHeadingSection headings).data ++
           '\n' :: ("========================================".data ++ '\n' :: [])))))) := by
    simp [formatResultsForExport, String.data_append, List.append_assoc]
  rw [hd, parseReport_headerLine url hu, parseReport_sepLine, parseReport_newline,
    parseReport_summaryTitle, parseReport_summary _ _ hsum, parseReport_newline,
    parseReport_headingsTitle, parseReport_headingSection _ _ hhead,
    parseReport_tail, List.append_nil]

/-- C6 counterexample: for a heading record whose text contains a newline
(here `a\nH2: b` at level 1), formatting and parsing back does not
reproduce the original pair sequence. -/
theorem format_parse_roundTrip_cex :
    parseHeadingLines (formatResultsForExport "u" []
        [⟨1, "a" ++ "\n" ++ "H2: b", []⟩]) = [(1, "a"), (2, "b")] ∧
    [((1 : Nat), "a"), ((2 : Nat), "b")] ≠
      ([⟨1, "a" ++ "\n" ++ "H2: b", []⟩] : List HeadingInfo).map
        (fun h => (h.level, h.text)) := by
  constructor
  · decide
  · decide

/-- Witness for the amended C6 on a concrete result. -/
theorem format_parse_roundTrip_witness :
    (¬ '\n' ∈ ("https://example.com" : String).data) ∧
    (∀ item ∈ (["Good: Exactly one H1 tag found."] : List String),
      ¬ '\n' ∈ item.data) ∧
    (∀ h ∈ ([⟨1, "Title", []⟩,
        ⟨3, "Sub", ["Skipped heading level: H1 followed by H3."]⟩] : List HeadingInfo),
      1 ≤ h.level ∧ h.level ≤ 6 ∧ ¬ '\n' ∈ h.text.data ∧
        ∀ issue ∈ h.issues, ¬ '\n' ∈ issue.data) ∧
    parseHeadingLines (formatResultsForExport "https://example.com"
        ["Good: Exactly one H1 tag found."]
        [⟨1, "Title", []⟩,
         ⟨3, "Sub", ["Skipped heading level: H1 followed by H3."]⟩]) =
      [(1, "Title"), (3, "Sub")] :=
  ⟨by decide, by decide, by decide,
   format_parse_roundTrip "https://example.com"
     ["Good: Exactly one H1 tag found."]
     [⟨1, "Title", []⟩, ⟨3, "Sub", ["Skipped heading level: H1 followed by H3."]⟩]
     (by decide) (by decide) (by decide)⟩
